import Mathlib

/-!
# Sensor conversions of the ESP32 HTTP firmware

A shallow embedding of `src/sensors.h` and the calibration constants of
`src/config.h`.

* Hardware queries (`analogRead`, `WiFi.RSSI`) are fields of an explicit
  `Hardware` value that every reader receives.
* The `#define`d calibration constants are fields of a `Config` value;
  `config` is the one written in `config.h`.
* `int` and `long` are 32 bits wide on the target; they are integers that
  are wrapped to the two's complement range after every arithmetic step.
* `float` and `double` values are rationals. A conversion from an integer
  below `2^24` in magnitude and a comparison with an integer literal are exact.
  The `double` arithmetic of `readBatteryPercentage` and its store into a
  `float` are rounded as IEEE 754 does, to the nearest value with a significand
  of 53 or 24 bits, ties to even. The exponent range is not bounded; every
  value the battery computation can reach from a finite `float` either lies in
  the normal range or is clamped to the same bound as the infinity it would
  become.
* `pow` is the real power function.
* Next to each reader that computes with `map` or divides there is a checked
  variant returning `Except Fault`, in which a zero run of `map`, a result
  outside the 32-bit range and a zero divisor are faults.
-/

namespace Sensors

/-! ## Machine integers -/

/-- Smallest value of a 32-bit `int` / `long`. -/
def LONG_MIN : Int := -2147483648

/-- Largest value of a 32-bit `int` / `long`. -/
def LONG_MAX : Int := 2147483647

/-- Two's complement wrap of an integer to 32 bits. -/
def wrapLong (x : Int) : Int := (x + 2147483648) % 4294967296 - 2147483648

/-! ## Configuration and hardware -/

/-- The sensor part of `config.h`. -/
structure Config where
  LDR_PIN : Int
  LDR_MIN_VALUE : Int
  LDR_MAX_VALUE : Int

/-- The values `config.h` defines: pin 34, calibration bounds 0 and 4095. -/
def config : Config := ⟨34, 0, 4095⟩

/-- What the board answers to the two hardware queries of `sensors.h`. -/
structure Hardware where
  analogRead : Int → Int
  RSSI : Int

/-! ## The Arduino core function `map` -/

/-- Modelled from the spec: `map` is the Arduino core function that
`readLDRPercentage` calls to map the raw value linearly from the calibration
bounds onto `0..100`; it is not among the sources. It is the integer map of the
ESP32 Arduino core: `run = in_max - in_min`; when `run == 0` an error is logged
and `-1` returned; otherwise
`(x - in_min) * (out_max - out_min) / run + out_min` in `long` arithmetic with
the truncating division of C. -/
def map (x in_min in_max out_min out_max : Int) : Int :=
  let run := wrapLong (in_max - in_min)
  if run = 0 then -1
  else
    let rise := wrapLong (out_max - out_min)
    let delta := wrapLong (x - in_min)
    wrapLong (wrapLong (Int.tdiv (wrapLong (delta * rise)) run) + out_min)

/-! ## LDR -/

/-- `readLDRRaw`: one ADC sample of the LDR pin. -/
def readLDRRaw (cfg : Config) (hw : Hardware) : Int :=
  hw.analogRead cfg.LDR_PIN

/-- Body of `readLDRPercentage` after the raw read: integer `map` of the raw
value from the calibration bounds to `0..100`, stored in a `float`, then the
two clamps. -/
def readLDRPercentageFrom (cfg : Config) (rawValue : Int) : ℚ :=
  let percentage : ℚ := (map rawValue cfg.LDR_MIN_VALUE cfg.LDR_MAX_VALUE 0 100 : Int)
  let percentage := if percentage < 0 then 0 else percentage
  let percentage := if percentage > 100 then 100 else percentage
  percentage

/-- `readLDRPercentage`: the LDR reading as a percentage. -/
def readLDRPercentage (cfg : Config) (hw : Hardware) : ℚ :=
  readLDRPercentageFrom cfg (readLDRRaw cfg hw)

/-- Body of `readLDRLux` after the raw read: `pow(10, (rawValue / 4095.0) * 4)`,
over the reals. -/
noncomputable def readLDRLuxFrom (rawValue : Int) : ℝ :=
  (10 : ℝ) ^ (((rawValue : ℝ) / 4095.0) * 4)

/-- `readLDRLux`: approximate lux of the LDR reading. -/
noncomputable def readLDRLux (cfg : Config) (hw : Hardware) : ℝ :=
  readLDRLuxFrom (readLDRRaw cfg hw)

/-- Body of `getLightLevel` after the percentage read: the chain of strict
comparisons, first match wins. -/
def getLightLevelFrom (percentage : ℚ) : String :=
  if percentage < 20 then "Dark"
  else if percentage < 40 then "Dim"
  else if percentage < 60 then "Moderate"
  else if percentage < 80 then "Bright"
  else "Very Bright"

/-- `getLightLevel`: description of the light level. -/
def getLightLevel (cfg : Config) (hw : Hardware) : String :=
  getLightLevelFrom (readLDRPercentage cfg hw)

/-! ## IEEE 754 rounding -/

/-- Round a rational to the nearest integer, a tie to the even neighbour. -/
def roundNearestEven (q : ℚ) : Int :=
  let f := ⌊q⌋
  if q - f < 1 / 2 then f
  else if 1 / 2 < q - f then f + 1
  else if f % 2 = 0 then f else f + 1

/-- Round a rational to the nearest binary floating-point value with a
significand of `p` bits, ties to even: with `e` the exponent of the last
significand bit, `q / 2 ^ e` is rounded to an integer. -/
def roundToPrecision (p : Nat) (q : ℚ) : ℚ :=
  if q = 0 then 0
  else
    let e := Int.log 2 |q| - ((p : Int) - 1)
    (roundNearestEven (q / 2 ^ e) : ℚ) * 2 ^ e

/-- The value a `float` holds after a store: 24 bits of significand. -/
def toFloat (q : ℚ) : ℚ := roundToPrecision 24 q

/-- The value of a `double` operation or literal: 53 bits of significand. -/
def toDouble (q : ℚ) : ℚ := roundToPrecision 53 q

/-! ## Battery -/

/-- The cast `(int)` of a `float`: truncation toward zero. -/
def floatToInt (q : ℚ) : Int := Int.tdiv q.num q.den

/-- `readBatteryVoltage`: the placeholder 3.7 V; no hardware is queried. The
literal becomes a `float` where the caller stores it. -/
def readBatteryVoltage (_hw : Hardware) : ℚ := 3.7

/-- Body of `readBatteryPercentage` after the voltage has been stored in the
`float voltage`: the subtraction, the division by the `double` `4.2 - 3.0` and
the multiplication are `double` operations, the result is stored in the
`float percentage`, clamped and cast to `int`. -/
def readBatteryPercentageFrom (voltage : ℚ) : Int :=
  let percentage : ℚ :=
    toFloat (toDouble (toDouble (toDouble (voltage - 3.0) / toDouble (toDouble 4.2 - 3.0)) * 100))
  let percentage := if percentage < 0 then 0 else percentage
  let percentage := if percentage > 100 then 100 else percentage
  floatToInt percentage

/-- `readBatteryPercentage`: battery percentage of a 3.7 V LiPo. -/
def readBatteryPercentage (hw : Hardware) : Int :=
  readBatteryPercentageFrom (toFloat (readBatteryVoltage hw))

/-! ## WiFi -/

/-- `getWiFiSignalStrength`: the RSSI in dBm. -/
def getWiFiSignalStrength (hw : Hardware) : Int := hw.RSSI

/-- Body of `getWiFiSignalQuality` after the RSSI read:
`quality = 2 * (rssi + 100)` in `int` arithmetic, then the two clamps. -/
def getWiFiSignalQualityFrom (rssi : Int) : Int :=
  let quality := wrapLong (2 * wrapLong (rssi + 100))
  let quality := if quality < 0 then 0 else quality
  let quality := if quality > 100 then 100 else quality
  quality

/-- `getWiFiSignalQuality`: WiFi signal quality percentage. -/
def getWiFiSignalQuality (hw : Hardware) : Int :=
  getWiFiSignalQualityFrom hw.RSSI

/-! ## Checked variants -/

/-- What an operation of the checked variants can signal. -/
inductive Fault where
  | invalidRange
  | overflow
  | divisionByZero

/-- A `long` or `int` result: a fault when it does not fit 32 bits. -/
def checkedLong (x : Int) : Except Fault Int :=
  if LONG_MIN ≤ x ∧ x ≤ LONG_MAX then Except.ok x else Except.error Fault.overflow

/-- The Arduino core `map` with its faults: the zero-run branch that logs an
error is `invalidRange`, and a step that leaves the 32-bit range is
`overflow`. -/
def mapChecked (x in_min in_max out_min out_max : Int) : Except Fault Int :=
  match checkedLong (in_max - in_min) with
  | Except.error f => Except.error f
  | Except.ok run =>
    if run = 0 then Except.error Fault.invalidRange
    else
      match checkedLong (out_max - out_min), checkedLong (x - in_min) with
      | Except.ok rise, Except.ok delta =>
        match checkedLong (delta * rise) with
        | Except.error f => Except.error f
        | Except.ok product =>
          match checkedLong (Int.tdiv product run) with
          | Except.error f => Except.error f
          | Except.ok quotient => checkedLong (quotient + out_min)
      | Except.error f, _ => Except.error f
      | _, Except.error f => Except.error f

/-- `readLDRPercentage` over `mapChecked`. -/
def readLDRPercentageChecked (cfg : Config) (hw : Hardware) : Except Fault ℚ :=
  let rawValue := readLDRRaw cfg hw
  match mapChecked rawValue cfg.LDR_MIN_VALUE cfg.LDR_MAX_VALUE 0 100 with
  | Except.error f => Except.error f
  | Except.ok m =>
    let percentage : ℚ := (m : Int)
    let percentage := if percentage < 0 then 0 else percentage
    let percentage := if percentage > 100 then 100 else percentage
    Except.ok percentage

/-- A division: a fault when the divisor is zero. -/
def checkedDiv (a b : ℚ) : Except Fault ℚ :=
  if b = 0 then Except.error Fault.divisionByZero else Except.ok (a / b)

/-- Body of `readBatteryPercentage` with a checked division and a checked
cast to `int`. -/
def readBatteryPercentageCheckedFrom (voltage : ℚ) : Except Fault Int :=
  match checkedDiv (toDouble (voltage - 3.0)) (toDouble (toDouble 4.2 - 3.0)) with
  | Except.error f => Except.error f
  | Except.ok ratio =>
    let percentage : ℚ := toFloat (toDouble (toDouble ratio * 100))
    let percentage := if percentage < 0 then 0 else percentage
    let percentage := if percentage > 100 then 100 else percentage
    checkedLong (floatToInt percentage)

/-- `readBatteryPercentage` with a checked division and cast. -/
def readBatteryPercentageChecked (hw : Hardware) : Except Fault Int :=
  readBatteryPercentageCheckedFrom (toFloat (readBatteryVoltage hw))

/-! ## Reference notions of the refinement and ordering statements -/

/-- Reference value that `readLDRPercentage` is compared with: the exact
percentage `100 * r / 4095` of a raw value for the configured bounds, with no
integer truncation. -/
def exactPercentage (rawValue : Int) : ℚ := 100 * (rawValue : ℚ) / 4095

/-- Position of a label in the order Dark < Dim < Moderate < Bright <
Very Bright. -/
def lightLevelRank (label : String) : Nat :=
  if label = "Dark" then 0
  else if label = "Dim" then 1
  else if label = "Moderate" then 2
  else if label = "Bright" then 3
  else 4

/-! ## Auxiliary facts -/

/-- A value inside the 32-bit range is left alone by the wrap. -/
theorem wrapLong_of_range (x : Int) (h1 : LONG_MIN ≤ x) (h2 : x ≤ LONG_MAX) :
    wrapLong x = x := by
  unfold wrapLong LONG_MIN LONG_MAX at *
  omega

/-- Truncating division of a negative dividend by a positive divisor. -/
theorem tdiv_of_neg (a b : Int) (ha : a < 0) (hb : 0 < b) :
    Int.tdiv a b = -((-a) / b) := by
  rw [← Int.tdiv_eq_ediv (by omega) (by omega), Int.neg_tdiv, neg_neg]

/-- Inside the ADC domain no step of `map` wraps and the zero-run guard is not
taken: the result is the truncated quotient itself. -/
theorem map_in_domain (r lo hi : Int) (hlo : 0 ≤ lo) (hlt : lo < hi) (hhi : hi ≤ 4095)
    (hr0 : 0 ≤ r) (hr1 : r ≤ 4095) :
    map r lo hi 0 100 = Int.tdiv ((r - lo) * 100) (hi - lo) := by
  have hrun : wrapLong (hi - lo) = hi - lo :=
    wrapLong_of_range _ (by unfold LONG_MIN; omega) (by unfold LONG_MAX; omega)
  have hrise : wrapLong (100 - 0) = 100 := by decide
  have hdelta : wrapLong (r - lo) = r - lo :=
    wrapLong_of_range _ (by unfold LONG_MIN; omega) (by unfold LONG_MAX; omega)
  have hprod : wrapLong ((r - lo) * 100) = (r - lo) * 100 :=
    wrapLong_of_range _ (by unfold LONG_MIN; omega) (by unfold LONG_MAX; omega)
  have hb : 0 < hi - lo := by omega
  have hq : LONG_MIN ≤ Int.tdiv ((r - lo) * 100) (hi - lo) ∧
      Int.tdiv ((r - lo) * 100) (hi - lo) ≤ LONG_MAX := by
    unfold LONG_MIN LONG_MAX
    rcases lt_or_le ((r - lo) * 100) 0 with hneg | hpos
    · rw [tdiv_of_neg _ _ hneg hb]
      have h0 : 0 ≤ (-((r - lo) * 100)) / (hi - lo) := Int.ediv_nonneg (by omega) (by omega)
      have h1 : (-((r - lo) * 100)) / (hi - lo) ≤ -((r - lo) * 100) :=
        Int.ediv_le_self _ (by omega)
      omega
    · rw [Int.tdiv_eq_ediv hpos (by omega)]
      have h0 : 0 ≤ ((r - lo) * 100) / (hi - lo) := Int.ediv_nonneg hpos (by omega)
      have h1 : ((r - lo) * 100) / (hi - lo) ≤ (r - lo) * 100 := Int.ediv_le_self _ hpos
      omega
  unfold map
  simp only [hrun, hrise, hdelta, hprod, add_zero]
  rw [if_neg (by omega), wrapLong_of_range _ hq.1 hq.2, wrapLong_of_range _ hq.1 hq.2]

/-- Inside the ADC domain the integer returned by `map` is far below `2^24` in
magnitude, so storing it in a `float` does not round. -/
theorem map_in_domain_bound (r lo hi : Int) (hlo : 0 ≤ lo) (hlt : lo < hi) (hhi : hi ≤ 4095)
    (hr0 : 0 ≤ r) (hr1 : r ≤ 4095) :
    -409500 ≤ map r lo hi 0 100 ∧ map r lo hi 0 100 ≤ 409500 := by
  rw [map_in_domain r lo hi hlo hlt hhi hr0 hr1]
  have hb : 0 < hi - lo := by omega
  rcases lt_or_le ((r - lo) * 100) 0 with hneg | hpos
  · rw [tdiv_of_neg _ _ hneg hb]
    have h0 : 0 ≤ (-((r - lo) * 100)) / (hi - lo) := Int.ediv_nonneg (by omega) (by omega)
    have h1 : (-((r - lo) * 100)) / (hi - lo) ≤ -((r - lo) * 100) :=
      Int.ediv_le_self _ (by omega)
    omega
  · rw [Int.tdiv_eq_ediv hpos (by omega)]
    have h0 : 0 ≤ ((r - lo) * 100) / (hi - lo) := Int.ediv_nonneg hpos (by omega)
    have h1 : ((r - lo) * 100) / (hi - lo) ≤ (r - lo) * 100 := Int.ediv_le_self _ hpos
    omega

/-- The two clamps of `readLDRPercentage` written with `max` and `min` on the
integer that `map` returned. -/
theorem readLDRPercentageFrom_eq_clamp (cfg : Config) (rawValue : Int) :
    readLDRPercentageFrom cfg rawValue =
      ((max 0 (min 100 (map rawValue cfg.LDR_MIN_VALUE cfg.LDR_MAX_VALUE 0 100)) : Int) : ℚ) := by
  unfold readLDRPercentageFrom
  generalize map rawValue cfg.LDR_MIN_VALUE cfg.LDR_MAX_VALUE 0 100 = m
  simp only []
  rcases lt_or_le m 0 with h | h
  · have hq : (m : ℚ) < 0 := by exact_mod_cast h
    rw [if_pos hq, if_neg (by norm_num), max_eq_left (by omega)]
    simp
  · have hq : ¬ (m : ℚ) < 0 := by
      have : (0 : ℚ) ≤ m := by exact_mod_cast h
      linarith
    rw [if_neg hq]
    rcases le_or_lt m 100 with h1 | h1
    · have hq1 : ¬ (m : ℚ) > 100 := by
        have : (m : ℚ) ≤ 100 := by exact_mod_cast h1
        linarith
      rw [if_neg hq1, min_eq_right h1, max_eq_right h]
    · have hq1 : (m : ℚ) > 100 := by exact_mod_cast h1
      rw [if_pos hq1, min_eq_left (by omega), max_eq_right (by omega)]
      simp

/-! ## Light percentage -/

/-- C1: with the configured bounds 0 and 4095, for every raw value in
0..4095 the percentage of `readLDRPercentage` differs from the exact
`r * 100 / 4095` by less than 1 and lies in 0..100. -/
theorem readLDRPercentage_configured (hw : Hardware)
    (hr0 : 0 ≤ readLDRRaw config hw) (hr1 : readLDRRaw config hw ≤ 4095) :
    |readLDRPercentage config hw - (readLDRRaw config hw : ℚ) * 100 / 4095| < 1 ∧
      0 ≤ readLDRPercentage config hw ∧ readLDRPercentage config hw ≤ 100 := by
  unfold readLDRPercentage
  generalize readLDRRaw config hw = r at hr0 hr1
  rw [readLDRPercentageFrom_eq_clamp]
  have hm : map r config.LDR_MIN_VALUE config.LDR_MAX_VALUE 0 100 = r * 100 / 4095 := by
    show map r 0 4095 0 100 = r * 100 / 4095
    rw [map_in_domain r 0 4095 (by omega) (by omega) (by omega) hr0 hr1,
      Int.tdiv_eq_ediv (by omega) (by omega)]
    simp
  rw [hm]
  have h0 : 0 ≤ r * 100 / 4095 := by omega
  have h1 : r * 100 / 4095 ≤ 100 := by omega
  rw [min_eq_right h1, max_eq_right h0]
  have hlo : (r * 100 / 4095) * 4095 ≤ r * 100 := by omega
  have hup : r * 100 < (r * 100 / 4095) * 4095 + 4095 := by omega
  have hloq : ((r * 100 / 4095 : Int) : ℚ) * 4095 ≤ (r : ℚ) * 100 := by exact_mod_cast hlo
  have hupq : (r : ℚ) * 100 < ((r * 100 / 4095 : Int) : ℚ) * 4095 + 4095 := by exact_mod_cast hup
  have hx : (r : ℚ) * 100 / 4095 * 4095 = (r : ℚ) * 100 := by field_simp
  have h0q : (0 : ℚ) ≤ ((r * 100 / 4095 : Int) : ℚ) := by exact_mod_cast h0
  have h1q : ((r * 100 / 4095 : Int) : ℚ) ≤ 100 := by exact_mod_cast h1
  refine ⟨?_, h0q, h1q⟩
  rw [abs_lt]
  constructor <;> linarith

/-- Instance of `readLDRPercentage_configured` at the mid-scale sample 2048. -/
theorem readLDRPercentage_configured_witness :
    |readLDRPercentage config ⟨fun _ => 2048, -60⟩ -
        (readLDRRaw config ⟨fun _ => 2048, -60⟩ : ℚ) * 100 / 4095| < 1 ∧
      0 ≤ readLDRPercentage config ⟨fun _ => 2048, -60⟩ ∧
      readLDRPercentage config ⟨fun _ => 2048, -60⟩ ≤ 100 :=
  readLDRPercentage_configured ⟨fun _ => 2048, -60⟩ (by decide) (by decide)

/-- C2: for calibration bounds `0 ≤ min < max ≤ 4095` and a raw value in
0..4095, the percentage is exactly 0 below `min`, exactly 100 above `max`,
and never outside 0..100. -/
theorem readLDRPercentage_outside_bounds (cfg : Config) (hw : Hardware)
    (hmin : 0 ≤ cfg.LDR_MIN_VALUE) (hlt : cfg.LDR_MIN_VALUE < cfg.LDR_MAX_VALUE)
    (hmax : cfg.LDR_MAX_VALUE ≤ 4095)
    (hr0 : 0 ≤ readLDRRaw cfg hw) (hr1 : readLDRRaw cfg hw ≤ 4095) :
    (readLDRRaw cfg hw < cfg.LDR_MIN_VALUE → readLDRPercentage cfg hw = 0) ∧
      (cfg.LDR_MAX_VALUE < readLDRRaw cfg hw → readLDRPercentage cfg hw = 100) ∧
      0 ≤ readLDRPercentage cfg hw ∧ readLDRPercentage cfg hw ≤ 100 := by
  unfold readLDRPercentage
  generalize readLDRRaw cfg hw = r at hr0 hr1
  rw [readLDRPercentageFrom_eq_clamp, map_in_domain r _ _ hmin hlt hmax hr0 hr1]
  have hb : 0 < cfg.LDR_MAX_VALUE - cfg.LDR_MIN_VALUE := by omega
  refine ⟨?_, ?_, ?_, ?_⟩
  · intro h
    have hneg : (r - cfg.LDR_MIN_VALUE) * 100 < 0 := by omega
    rw [tdiv_of_neg _ _ hneg hb]
    have h0 : 0 ≤ (-((r - cfg.LDR_MIN_VALUE) * 100)) / (cfg.LDR_MAX_VALUE - cfg.LDR_MIN_VALUE) :=
      Int.ediv_nonneg (by omega) (by omega)
    rw [min_eq_right (by omega), max_eq_left (by omega)]
    simp
  · intro h
    have hpos : 0 ≤ (r - cfg.LDR_MIN_VALUE) * 100 := by omega
    rw [Int.tdiv_eq_ediv hpos (by omega)]
    have h100 : 100 ≤ (r - cfg.LDR_MIN_VALUE) * 100 / (cfg.LDR_MAX_VALUE - cfg.LDR_MIN_VALUE) := by
      rw [Int.le_ediv_iff_mul_le hb]
      nlinarith
    rw [min_eq_left h100, max_eq_right (by omega)]
    simp
  · exact_mod_cast le_max_left _ _
  · have : max 0 (min 100 (Int.tdiv ((r - cfg.LDR_MIN_VALUE) * 100)
        (cfg.LDR_MAX_VALUE - cfg.LDR_MIN_VALUE))) ≤ 100 :=
      max_le (by omega) (min_le_left _ _)
    exact_mod_cast this

/-- Instance of `readLDRPercentage_outside_bounds` at bounds 1000 and 3000:
the sample 500 reads 0 percent and the sample 3500 reads 100 percent. -/
theorem readLDRPercentage_outside_bounds_witness :
    readLDRPercentage ⟨34, 1000, 3000⟩ ⟨fun _ => 500, -60⟩ = 0 ∧
      readLDRPercentage ⟨34, 1000, 3000⟩ ⟨fun _ => 3500, -60⟩ = 100 :=
  ⟨(readLDRPercentage_outside_bounds ⟨34, 1000, 3000⟩ ⟨fun _ => 500, -60⟩
      (by decide) (by decide) (by decide) (by decide) (by decide)).1 (by decide),
    (readLDRPercentage_outside_bounds ⟨34, 1000, 3000⟩ ⟨fun _ => 3500, -60⟩
      (by decide) (by decide) (by decide) (by decide) (by decide)).2.1 (by decide)⟩
/-! ## Light level -/

/-- C3: the label of `getLightLevel` depends on the percentage alone and each
threshold is an exclusive upper bound of the lower label: Dark below 20, Dim
from 20 to below 40, Moderate from 40 to below 60, Bright from 60 to below 80,
Very Bright from 80 on; the nine boundary values of the table get the listed
labels, and exactly one of the five labels is returned. -/
theorem getLightLevel_thresholds :
    (∀ (cfg : Config) (hw : Hardware),
        getLightLevel cfg hw = getLightLevelFrom (readLDRPercentage cfg hw)) ∧
      (∀ p : ℚ,
        (getLightLevelFrom p = "Dark" ↔ p < 20) ∧
        (getLightLevelFrom p = "Dim" ↔ 20 ≤ p ∧ p < 40) ∧
        (getLightLevelFrom p = "Moderate" ↔ 40 ≤ p ∧ p < 60) ∧
        (getLightLevelFrom p = "Bright" ↔ 60 ≤ p ∧ p < 80) ∧
        (getLightLevelFrom p = "Very Bright" ↔ 80 ≤ p)) ∧
      (getLightLevelFrom 19.9 = "Dark" ∧ getLightLevelFrom 20.0 = "Dim" ∧
        getLightLevelFrom 39.9 = "Dim" ∧ getLightLevelFrom 40.0 = "Moderate" ∧
        getLightLevelFrom 59.9 = "Moderate" ∧ getLightLevelFrom 60.0 = "Bright" ∧
        getLightLevelFrom 79.9 = "Bright" ∧ getLightLevelFrom 80.0 = "Very Bright" ∧
        getLightLevelFrom 100.0 = "Very Bright") ∧
      (∀ p : ℚ, ∃! l : String,
        l ∈ ["Dark", "Dim", "Moderate", "Bright", "Very Bright"] ∧ getLightLevelFrom p = l) ∧
      ["Dark", "Dim", "Moderate", "Bright", "Very Bright"].Nodup := by
  have key : ∀ p : ℚ,
      (getLightLevelFrom p = "Dark" ↔ p < 20) ∧
      (getLightLevelFrom p = "Dim" ↔ 20 ≤ p ∧ p < 40) ∧
      (getLightLevelFrom p = "Moderate" ↔ 40 ≤ p ∧ p < 60) ∧
      (getLightLevelFrom p = "Bright" ↔ 60 ≤ p ∧ p < 80) ∧
      (getLightLevelFrom p = "Very Bright" ↔ 80 ≤ p) := by
    intro p
    unfold getLightLevelFrom
    split_ifs with h1 h2 h3 h4 <;>
    refine ⟨?_, ?_, ?_, ?_, ?_⟩ <;>
    constructor <;> intro h <;>
    first
      | rfl
      | exact absurd h (by decide)
      | linarith
      | exact ⟨by linarith, by linarith⟩
  refine ⟨fun _ _ => rfl, key, ?_, ?_, by decide⟩
  · refine ⟨?_, ?_, ?_, ?_, ?_, ?_, ?_, ?_, ?_⟩
    · exact (key _).1.mpr (by norm_num)
    · exact (key _).2.1.mpr (by norm_num)
    · exact (key _).2.1.mpr (by norm_num)
    · exact (key _).2.2.1.mpr (by norm_num)
    · exact (key _).2.2.1.mpr (by norm_num)
    · exact (key _).2.2.2.1.mpr (by norm_num)
    · exact (key _).2.2.2.1.mpr (by norm_num)
    · exact (key _).2.2.2.2.mpr (by norm_num)
    · exact (key _).2.2.2.2.mpr (by norm_num)
  · intro p
    refine ⟨getLightLevelFrom p, ⟨?_, rfl⟩, fun l hl => hl.2.symm⟩
    unfold getLightLevelFrom
    split_ifs <;> simp
/-! ## WiFi signal quality -/

/-- C4: when `2 * (rssi + 100)` fits a 32-bit `int`, `getWiFiSignalQuality`
returns it clamped to 0..100: 0 exactly for `rssi ≤ -100`, 100 exactly for
`rssi ≥ -50`, the formula itself in between; -100 gives 0, -50 gives 100 and
-30 gives 140 before the clamp and 100 after it. -/
theorem getWiFiSignalQuality_formula (hw : Hardware)
    (hlo : LONG_MIN ≤ 2 * (hw.RSSI + 100)) (hhi : 2 * (hw.RSSI + 100) ≤ LONG_MAX) :
    getWiFiSignalQuality hw = max 0 (min 100 (2 * (hw.RSSI + 100))) ∧
      (getWiFiSignalQuality hw = 0 ↔ hw.RSSI ≤ -100) ∧
      (getWiFiSignalQuality hw = 100 ↔ -50 ≤ hw.RSSI) ∧
      (-100 < hw.RSSI → hw.RSSI < -50 → getWiFiSignalQuality hw = 2 * (hw.RSSI + 100)) ∧
      getWiFiSignalQualityFrom (-100) = 0 ∧ getWiFiSignalQualityFrom (-50) = 100 ∧
      wrapLong (2 * wrapLong (-30 + 100)) = 140 ∧ getWiFiSignalQualityFrom (-30) = 100 := by
  have hinner : wrapLong (hw.RSSI + 100) = hw.RSSI + 100 :=
    wrapLong_of_range _ (by unfold LONG_MIN at *; omega) (by unfold LONG_MAX at *; omega)
  have houter : wrapLong (2 * (hw.RSSI + 100)) = 2 * (hw.RSSI + 100) :=
    wrapLong_of_range _ hlo hhi
  have hq : getWiFiSignalQuality hw = max 0 (min 100 (2 * (hw.RSSI + 100))) := by
    unfold getWiFiSignalQuality getWiFiSignalQualityFrom
    simp only [hinner, houter]
    split_ifs <;> omega
  refine ⟨hq, ?_, ?_, ?_, by decide, by decide, by decide, by decide⟩
  · rw [hq]; omega
  · rw [hq]; omega
  · intro h1 h2
    rw [hq]; omega

/-- Instance of `getWiFiSignalQuality_formula` at an RSSI of -75 dBm, which
reads 50 percent. -/
theorem getWiFiSignalQuality_formula_witness :
    getWiFiSignalQuality ⟨fun _ => 0, -75⟩ = 50 :=
  ((getWiFiSignalQuality_formula ⟨fun _ => 0, -75⟩ (by decide) (by decide)).2.2.2.1
    (by decide) (by decide)).trans (by decide)

/-- C5: evaluation of `getWiFiSignalQuality` at the two RSSI values of its
comment: -30 dBm reads 100 percent, but -90 dBm reads 20 percent and not the
0 percent the comment announces; 0 percent is reached at -100 dBm. -/
theorem getWiFiSignalQuality_at_comment_values :
    getWiFiSignalQuality ⟨fun _ => 0, -30⟩ = 100 ∧
      getWiFiSignalQuality ⟨fun _ => 0, -90⟩ = 20 ∧
      getWiFiSignalQuality ⟨fun _ => 0, -90⟩ ≠ 0 ∧
      getWiFiSignalQuality ⟨fun _ => 0, -100⟩ = 0 := by
  decide
/-! ## Battery -/

/-- On a non-negative value the cast `(int)` is the floor. -/
theorem floatToInt_of_nonneg (q : ℚ) (h : 0 ≤ q) : floatToInt q = ⌊q⌋ := by
  unfold floatToInt
  rw [Rat.floor_def, Int.tdiv_eq_ediv (Rat.num_nonneg.mpr h) (by positivity)]

/-- The clamps followed by the cast `(int)`: the truncation of the value,
clamped to 0..100. -/
theorem floatToInt_clamp (x : ℚ) :
    floatToInt (if (if x < 0 then 0 else x) > 100 then 100 else (if x < 0 then 0 else x)) =
      max 0 (min 100 (if 0 ≤ x then ⌊x⌋ else ⌈x⌉)) := by
  rcases lt_or_le x 0 with hx | hx
  · have hc : ⌈x⌉ ≤ 0 := Int.ceil_le.mpr (by exact_mod_cast hx.le)
    rw [if_pos hx, if_neg (by norm_num), if_neg (not_le.mpr hx), min_eq_right (by omega),
      max_eq_left hc]
    rfl
  · rw [if_neg (not_lt.mpr hx), if_pos hx]
    rcases le_or_lt x 100 with h1 | h1
    · have hf0 : 0 ≤ ⌊x⌋ := Int.floor_nonneg.mpr hx
      have hf1 : ⌊x⌋ ≤ 100 := by
        have : ⌊x⌋ ≤ ⌊(100 : ℚ)⌋ := Int.floor_le_floor h1
        simpa using this
      rw [if_neg (not_lt.mpr h1), floatToInt_of_nonneg x hx, min_eq_right hf1, max_eq_right hf0]
    · have hf : 100 ≤ ⌊x⌋ := Int.le_floor.mpr (by exact_mod_cast h1.le)
      rw [if_pos h1, min_eq_left hf, max_eq_right (by omega)]
      rfl

/-- The body of `readBatteryPercentage` returns a value in 0..100. -/
theorem readBatteryPercentageFrom_range (v : ℚ) :
    0 ≤ readBatteryPercentageFrom v ∧ readBatteryPercentageFrom v ≤ 100 := by
  unfold readBatteryPercentageFrom
  simp only []
  rw [floatToInt_clamp]
  exact ⟨le_max_left _ _, max_le (by omega) (min_le_left _ _)⟩

/-! ## Rounding error -/

/-- C8: the voltage is the placeholder 3.7 V whatever the hardware, so every
call of `readBatteryPercentage` returns 58, the truncation of
`(3.7 - 3.0) / (4.2 - 3.0) * 100`, which lies in 0..100. -/
theorem readBatteryPercentage_constant :
    (∀ hw : Hardware, readBatteryVoltage hw = 3.7 ∧ readBatteryPercentage hw = 58 ∧
        0 ≤ readBatteryPercentage hw ∧ readBatteryPercentage hw ≤ 100) ∧
      (∀ hw hw' : Hardware, readBatteryPercentage hw = readBatteryPercentage hw') ∧
      ⌊((3.7 : ℚ) - 3.0) / (4.2 - 3.0) * 100⌋ = 58 := by
  have h58 : ∀ hw : Hardware, readBatteryPercentage hw = 58 := by
    intro hw
    show readBatteryPercentageFrom (toFloat 3.7) = 58
    decide!
  refine ⟨fun hw => ⟨rfl, h58 hw, ?_, ?_⟩, fun _ _ => rfl, ?_⟩
  · rw [h58 hw]; decide
  · rw [h58 hw]; decide
  · rw [Int.floor_eq_iff]; norm_num

/-! ## Lux estimate -/

/-- The exponent of the lux curve is linear in the raw value. -/
theorem luxExponent_eq (r : Int) : ((r : ℝ) / 4095.0) * 4 = (r : ℝ) * (4 / 4095) := by
  norm_num
  ring

/-- C7: over the reals the lux curve `10 ^ ((r / 4095) * 4)` of `readLDRLux`
is 1 at raw 0, 10000 at raw 4095, and strictly increasing on 0..4095. -/
theorem readLDRLux_endpoints_strictMono (a b : Int)
    (_ha : 0 ≤ a) (hab : a < b) (_hb : b ≤ 4095) :
    (∀ (cfg : Config) (hw : Hardware), readLDRLux cfg hw = readLDRLuxFrom (readLDRRaw cfg hw)) ∧
      readLDRLuxFrom 0 = 1 ∧ readLDRLuxFrom 4095 = 10000 ∧
      readLDRLuxFrom a < readLDRLuxFrom b := by
  refine ⟨fun _ _ => rfl, ?_, ?_, ?_⟩
  · simp [readLDRLuxFrom]
  · unfold readLDRLuxFrom
    have h : (((4095 : Int) : ℝ) / 4095.0) * 4 = ((4 : ℕ) : ℝ) := by norm_num
    rw [h, Real.rpow_natCast]
    norm_num
  · unfold readLDRLuxFrom
    apply Real.rpow_lt_rpow_of_exponent_lt (by norm_num)
    rw [luxExponent_eq, luxExponent_eq]
    have : (a : ℝ) < b := by exact_mod_cast hab
    linarith

/-- Instance of `readLDRLux_endpoints_strictMono` at the two ends of the ADC
range. -/
theorem readLDRLux_endpoints_strictMono_witness :
    readLDRLuxFrom 0 < readLDRLuxFrom 4095 :=
  (readLDRLux_endpoints_strictMono 0 4095 (by decide) (by decide) (by decide)).2.2.2

/-- C10: for every raw value in 0..4095 the lux estimate of `readLDRLux` lies
in 1..10000, so it is inside the 0..10000 range and never 0. -/
theorem readLDRLux_range (cfg : Config) (hw : Hardware)
    (hr0 : 0 ≤ readLDRRaw cfg hw) (hr1 : readLDRRaw cfg hw ≤ 4095) :
    1 ≤ readLDRLux cfg hw ∧ readLDRLux cfg hw ≤ 10000 ∧
      0 ≤ readLDRLux cfg hw ∧ readLDRLux cfg hw ≠ 0 := by
  unfold readLDRLux
  generalize readLDRRaw cfg hw = r at hr0 hr1
  have h0 : (0 : ℝ) ≤ r := by exact_mod_cast hr0
  have h1 : (r : ℝ) ≤ 4095 := by exact_mod_cast hr1
  have hlo : 1 ≤ readLDRLuxFrom r := by
    unfold readLDRLuxFrom
    rw [luxExponent_eq]
    exact Real.one_le_rpow (by norm_num) (by positivity)
  have hhi : readLDRLuxFrom r ≤ 10000 := by
    unfold readLDRLuxFrom
    have h4 : (10000 : ℝ) = (10 : ℝ) ^ ((4 : ℕ) : ℝ) := by
      rw [Real.rpow_natCast]; norm_num
    rw [h4, luxExponent_eq]
    apply Real.rpow_le_rpow_of_exponent_le (by norm_num)
    push_cast
    linarith
  exact ⟨hlo, hhi, by linarith, by linarith⟩

/-- Instance of `readLDRLux_range` at the raw value 0. -/
theorem readLDRLux_range_witness :
    1 ≤ readLDRLux config ⟨fun _ => 0, -60⟩ ∧ readLDRLux config ⟨fun _ => 0, -60⟩ ≤ 10000 :=
  ⟨(readLDRLux_range config ⟨fun _ => 0, -60⟩ (by decide) (by decide)).1,
    (readLDRLux_range config ⟨fun _ => 0, -60⟩ (by decide) (by decide)).2.1⟩
/-! ## Totality -/

/-- A value inside the 32-bit range passes the range check. -/
theorem checkedLong_of_range (x : Int) (h1 : LONG_MIN ≤ x) (h2 : x ≤ LONG_MAX) :
    checkedLong x = Except.ok x := by
  unfold checkedLong
  rw [if_pos ⟨h1, h2⟩]

/-- Inside the ADC domain `mapChecked` signals no fault and returns what `map`
returns. -/
theorem mapChecked_in_domain (r lo hi : Int) (hlo : 0 ≤ lo) (hlt : lo < hi) (hhi : hi ≤ 4095)
    (hr0 : 0 ≤ r) (hr1 : r ≤ 4095) :
    mapChecked r lo hi 0 100 = Except.ok (map r lo hi 0 100) := by
  have hb := map_in_domain_bound r lo hi hlo hlt hhi hr0 hr1
  rw [map_in_domain r lo hi hlo hlt hhi hr0 hr1] at hb ⊢
  have hrun : checkedLong (hi - lo) = Except.ok (hi - lo) :=
    checkedLong_of_range _ (by unfold LONG_MIN; omega) (by unfold LONG_MAX; omega)
  have hrise : checkedLong (100 - 0) = Except.ok 100 :=
    checkedLong_of_range 100 (by decide) (by decide)
  have hdelta : checkedLong (r - lo) = Except.ok (r - lo) :=
    checkedLong_of_range _ (by unfold LONG_MIN; omega) (by unfold LONG_MAX; omega)
  have hprod : checkedLong ((r - lo) * 100) = Except.ok ((r - lo) * 100) :=
    checkedLong_of_range _ (by unfold LONG_MIN; omega) (by unfold LONG_MAX; omega)
  have hquot : checkedLong (Int.tdiv ((r - lo) * 100) (hi - lo)) =
      Except.ok (Int.tdiv ((r - lo) * 100) (hi - lo)) :=
    checkedLong_of_range _ (by unfold LONG_MIN; omega) (by unfold LONG_MAX; omega)
  unfold mapChecked
  simp only [hrun, hrise, hdelta, hprod, hquot, add_zero]
  rw [if_neg (by omega)]

/-- The `double` divisor `4.2 - 3.0` of `readBatteryPercentage` is not zero. -/
theorem batteryDivisor_ne_zero : toDouble (toDouble 4.2 - 3.0) ≠ 0 := by
  decide!

/-- The checked body of `readBatteryPercentage` signals no fault and returns
what the body returns. -/
theorem readBatteryPercentageCheckedFrom_ok (v : ℚ) :
    readBatteryPercentageCheckedFrom v = Except.ok (readBatteryPercentageFrom v) := by
  have hr := readBatteryPercentageFrom_range v
  unfold readBatteryPercentageCheckedFrom checkedDiv
  rw [if_neg batteryDivisor_ne_zero]
  exact checkedLong_of_range _ (by unfold LONG_MIN; exact le_trans (by decide) hr.1)
    (by unfold LONG_MAX; exact le_trans hr.2 (by decide))

/-- C9: the numeric transformations are total. For calibration bounds
`min < max` the divisor `max - min` of `map` is non-zero (4095 as configured),
so the zero-run branch is not taken; for bounds and raw value inside 0..4095 the
product `(r - min) * 100` fits a 32-bit signed integer, `map` is the plain
truncated quotient and `readLDRPercentage` runs without a fault; the battery
divisor `4.2 - 3.0` is non-zero and `readBatteryPercentage` runs without a
fault for every voltage. -/
theorem numeric_transformations_total (cfg : Config) (hw : Hardware)
    (hlo : LONG_MIN ≤ cfg.LDR_MIN_VALUE) (hhi : cfg.LDR_MAX_VALUE ≤ LONG_MAX)
    (hlt : cfg.LDR_MIN_VALUE < cfg.LDR_MAX_VALUE) :
    cfg.LDR_MAX_VALUE - cfg.LDR_MIN_VALUE ≠ 0 ∧
      wrapLong (cfg.LDR_MAX_VALUE - cfg.LDR_MIN_VALUE) ≠ 0 ∧
      config.LDR_MAX_VALUE - config.LDR_MIN_VALUE = 4095 ∧
      (0 ≤ cfg.LDR_MIN_VALUE → cfg.LDR_MAX_VALUE ≤ 4095 →
        0 ≤ readLDRRaw cfg hw → readLDRRaw cfg hw ≤ 4095 →
        LONG_MIN ≤ (readLDRRaw cfg hw - cfg.LDR_MIN_VALUE) * 100 ∧
        (readLDRRaw cfg hw - cfg.LDR_MIN_VALUE) * 100 ≤ LONG_MAX ∧
        map (readLDRRaw cfg hw) cfg.LDR_MIN_VALUE cfg.LDR_MAX_VALUE 0 100 =
          Int.tdiv ((readLDRRaw cfg hw - cfg.LDR_MIN_VALUE) * 100)
            (cfg.LDR_MAX_VALUE - cfg.LDR_MIN_VALUE) ∧
        mapChecked (readLDRRaw cfg hw) cfg.LDR_MIN_VALUE cfg.LDR_MAX_VALUE 0 100 =
          Except.ok (map (readLDRRaw cfg hw) cfg.LDR_MIN_VALUE cfg.LDR_MAX_VALUE 0 100) ∧
        readLDRPercentageChecked cfg hw = Except.ok (readLDRPercentage cfg hw)) ∧
      ((4.2 : ℚ) - 3.0 ≠ 0) ∧
      toDouble (toDouble 4.2 - 3.0) ≠ 0 ∧
      (∀ v : ℚ, readBatteryPercentageCheckedFrom v = Except.ok (readBatteryPercentageFrom v)) ∧
      readBatteryPercentageChecked hw = Except.ok (readBatteryPercentage hw) := by
  refine ⟨by omega, ?_, by decide, ?_, by norm_num, batteryDivisor_ne_zero,
    readBatteryPercentageCheckedFrom_ok, readBatteryPercentageCheckedFrom_ok _⟩
  · unfold wrapLong LONG_MIN LONG_MAX at *
    omega
  · intro h0 h1 hr0 hr1
    have hc := mapChecked_in_domain (readLDRRaw cfg hw) _ _ h0 hlt h1 hr0 hr1
    refine ⟨by unfold LONG_MIN; omega, by unfold LONG_MAX; omega,
      map_in_domain _ _ _ h0 hlt h1 hr0 hr1, hc, ?_⟩
    unfold readLDRPercentageChecked readLDRPercentage readLDRPercentageFrom
    simp only [hc]

/-- Instance of `numeric_transformations_total` at the configured bounds and
the full-scale sample 4095: no fault, and the percentage is 100. -/
theorem numeric_transformations_total_witness :
    wrapLong (config.LDR_MAX_VALUE - config.LDR_MIN_VALUE) ≠ 0 ∧
      readLDRPercentageChecked config ⟨fun _ => 4095, -60⟩ = Except.ok 100 ∧
      readBatteryPercentageChecked ⟨fun _ => 4095, -60⟩ = Except.ok 58 :=
  ⟨(numeric_transformations_total config ⟨fun _ => 4095, -60⟩
      (by decide) (by decide) (by decide)).2.1,
    ((numeric_transformations_total config ⟨fun _ => 4095, -60⟩
      (by decide) (by decide) (by decide)).2.2.2.1
      (by decide) (by decide) (by decide) (by decide)).2.2.2.2.trans
      (congrArg Except.ok (by decide)),
    (numeric_transformations_total config ⟨fun _ => 4095, -60⟩
      (by decide) (by decide) (by decide)).2.2.2.2.2.2.2.trans
      (congrArg Except.ok (by decide!))⟩

/-! ## Integer truncation of the percentage -/

/-- With the configured bounds the percentage of a raw value in 0..4095 is the
integer quotient `r * 100 / 4095`. -/
theorem readLDRPercentageFrom_config (r : Int) (hr0 : 0 ≤ r) (hr1 : r ≤ 4095) :
    readLDRPercentageFrom config r = ((r * 100 / 4095 : Int) : ℚ) := by
  rw [readLDRPercentageFrom_eq_clamp]
  have hm : map r config.LDR_MIN_VALUE config.LDR_MAX_VALUE 0 100 = r * 100 / 4095 := by
    show map r 0 4095 0 100 = r * 100 / 4095
    rw [map_in_domain r 0 4095 (by omega) (by omega) (by omega) hr0 hr1,
      Int.tdiv_eq_ediv (by omega) (by omega)]
    simp
  rw [hm, min_eq_right (by omega), max_eq_right (by omega)]

/-- The integer quotient `r * 100 / 4095` is the floor of the exact percentage. -/
theorem floor_exactPercentage (r : Int) : ⌊exactPercentage r⌋ = r * 100 / 4095 := by
  rw [Int.floor_eq_iff]
  unfold exactPercentage
  have hlo : (r * 100 / 4095) * 4095 ≤ r * 100 := by omega
  have hup : r * 100 < (r * 100 / 4095) * 4095 + 4095 := by omega
  have hloq : ((r * 100 / 4095 : Int) : ℚ) * 4095 ≤ (r : ℚ) * 100 := by exact_mod_cast hlo
  have hupq : (r : ℚ) * 100 < ((r * 100 / 4095 : Int) : ℚ) * 4095 + 4095 := by
    exact_mod_cast hup
  constructor
  · rw [le_div_iff₀ (by norm_num)]
    linarith
  · rw [div_lt_iff₀ (by norm_num)]
    linarith

/-- C11: with the configured bounds 0 and 4095 the percentage of
`readLDRPercentage` for a raw value in 0..4095 is a whole number, the integer
quotient `floor(100 * r / 4095)`; it never exceeds the exact `100 * r / 4095`,
it is 100 exactly when `r = 4095` and 0 exactly when `r ≤ 40`. -/
theorem readLDRPercentage_floor (hw : Hardware)
    (hr0 : 0 ≤ readLDRRaw config hw) (hr1 : readLDRRaw config hw ≤ 4095) :
    readLDRPercentage config hw = ((readLDRRaw config hw * 100 / 4095 : Int) : ℚ) ∧
      readLDRPercentage config hw = ((⌊(100 * (readLDRRaw config hw : ℚ)) / 4095⌋ : Int) : ℚ) ∧
      readLDRPercentage config hw ≤ (100 * (readLDRRaw config hw : ℚ)) / 4095 ∧
      (readLDRPercentage config hw = 100 ↔ readLDRRaw config hw = 4095) ∧
      (readLDRPercentage config hw = 0 ↔ readLDRRaw config hw ≤ 40) := by
  unfold readLDRPercentage
  generalize readLDRRaw config hw = r at hr0 hr1
  have hfl : ⌊(100 * (r : ℚ)) / 4095⌋ = r * 100 / 4095 := floor_exactPercentage r
  rw [readLDRPercentageFrom_config r hr0 hr1]
  refine ⟨rfl, by rw [hfl], ?_, ?_, ?_⟩
  · rw [← hfl]
    exact Int.floor_le _
  · constructor
    · intro h
      have h' : r * 100 / 4095 = 100 := by exact_mod_cast h
      omega
    · intro h
      have h' : r * 100 / 4095 = 100 := by omega
      exact_mod_cast h'
  · constructor
    · intro h
      have h' : r * 100 / 4095 = 0 := by exact_mod_cast h
      omega
    · intro h
      have h' : r * 100 / 4095 = 0 := by omega
      exact_mod_cast h'

/-- Instance of `readLDRPercentage_floor` at the raw values 41 and 4094: the
percentage is 1 and 99, the floors of 1.001... and 99.97... -/
theorem readLDRPercentage_floor_witness :
    readLDRPercentage config ⟨fun _ => 41, -60⟩ = 1 ∧
      readLDRPercentage config ⟨fun _ => 4094, -60⟩ = 99 :=
  ⟨(readLDRPercentage_floor ⟨fun _ => 41, -60⟩ (by decide) (by decide)).1.trans (by decide),
    (readLDRPercentage_floor ⟨fun _ => 4094, -60⟩ (by decide) (by decide)).1.trans (by decide)⟩
/-! ## Labels of the truncated and of the exact percentage -/

/-- The label of a percentage, read off the half-open interval it lies in. -/
theorem getLightLevelFrom_of_bucket (p : ℚ) :
    (p < 20 → getLightLevelFrom p = "Dark") ∧
      (20 ≤ p → p < 40 → getLightLevelFrom p = "Dim") ∧
      (40 ≤ p → p < 60 → getLightLevelFrom p = "Moderate") ∧
      (60 ≤ p → p < 80 → getLightLevelFrom p = "Bright") ∧
      (80 ≤ p → getLightLevelFrom p = "Very Bright") := by
  unfold getLightLevelFrom
  refine ⟨?_, ?_, ?_, ?_, ?_⟩
  · intro h
    rw [if_pos h]
  · intro h1 h2
    rw [if_neg (not_lt.mpr h1), if_pos h2]
  · intro h1 h2
    rw [if_neg (by linarith), if_neg (not_lt.mpr h1), if_pos h2]
  · intro h1 h2
    rw [if_neg (by linarith), if_neg (by linarith), if_neg (not_lt.mpr h1), if_pos h2]
  · intro h1
    rw [if_neg (by linarith), if_neg (by linarith), if_neg (by linarith), if_neg (not_lt.mpr h1)]

/-- C12: with the configured bounds the integer truncation never changes the
label: for a raw value in 0..4095 `getLightLevel` returns the label of the
exact percentage `100 * r / 4095`, which is Dark below 819, Dim from 819 to
below 1638, Moderate from 1638 to below 2457, Bright from 2457 to below 3276
and Very Bright from 3276 on. -/
theorem getLightLevel_refines_exact (hw : Hardware)
    (hr0 : 0 ≤ readLDRRaw config hw) (hr1 : readLDRRaw config hw ≤ 4095) :
    getLightLevel config hw = getLightLevelFrom (exactPercentage (readLDRRaw config hw)) ∧
      (getLightLevel config hw = "Dark" ↔ readLDRRaw config hw < 819) ∧
      (getLightLevel config hw = "Dim" ↔
        819 ≤ readLDRRaw config hw ∧ readLDRRaw config hw < 1638) ∧
      (getLightLevel config hw = "Moderate" ↔
        1638 ≤ readLDRRaw config hw ∧ readLDRRaw config hw < 2457) ∧
      (getLightLevel config hw = "Bright" ↔
        2457 ≤ readLDRRaw config hw ∧ readLDRRaw config hw < 3276) ∧
      (getLightLevel config hw = "Very Bright" ↔ 3276 ≤ readLDRRaw config hw) := by
  unfold getLightLevel readLDRPercentage
  generalize readLDRRaw config hw = r at hr0 hr1
  rw [readLDRPercentageFrom_config r hr0 hr1]
  have hx : exactPercentage r * 4095 = 100 * (r : ℚ) := by
    unfold exactPercentage
    field_simp
  have hcode : getLightLevelFrom ((r * 100 / 4095 : Int) : ℚ) =
      (if r < 819 then "Dark" else if r < 1638 then "Dim" else if r < 2457 then "Moderate"
        else if r < 3276 then "Bright" else "Very Bright") := by
    split_ifs with h1 h2 h3 h4
    · exact (getLightLevelFrom_of_bucket _).1
        (by have : r * 100 / 4095 < 20 := by omega
            exact_mod_cast this)
    · exact (getLightLevelFrom_of_bucket _).2.1
        (by have : 20 ≤ r * 100 / 4095 := by omega
            exact_mod_cast this)
        (by have : r * 100 / 4095 < 40 := by omega
            exact_mod_cast this)
    · exact (getLightLevelFrom_of_bucket _).2.2.1
        (by have : 40 ≤ r * 100 / 4095 := by omega
            exact_mod_cast this)
        (by have : r * 100 / 4095 < 60 := by omega
            exact_mod_cast this)
    · exact (getLightLevelFrom_of_bucket _).2.2.2.1
        (by have : 60 ≤ r * 100 / 4095 := by omega
            exact_mod_cast this)
        (by have : r * 100 / 4095 < 80 := by omega
            exact_mod_cast this)
    · exact (getLightLevelFrom_of_bucket _).2.2.2.2
        (by have : 80 ≤ r * 100 / 4095 := by omega
            exact_mod_cast this)
  have hexact : getLightLevelFrom (exactPercentage r) =
      (if r < 819 then "Dark" else if r < 1638 then "Dim" else if r < 2457 then "Moderate"
        else if r < 3276 then "Bright" else "Very Bright") := by
    split_ifs with h1 h2 h3 h4
    · have q1 : (r : ℚ) < 819 := by exact_mod_cast h1
      exact (getLightLevelFrom_of_bucket _).1 (by linarith)
    · have q1 : (819 : ℚ) ≤ r := by exact_mod_cast not_lt.mp h1
      have q2 : (r : ℚ) < 1638 := by exact_mod_cast h2
      exact (getLightLevelFrom_of_bucket _).2.1 (by linarith) (by linarith)
    · have q1 : (1638 : ℚ) ≤ r := by exact_mod_cast not_lt.mp h2
      have q2 : (r : ℚ) < 2457 := by exact_mod_cast h3
      exact (getLightLevelFrom_of_bucket _).2.2.1 (by linarith) (by linarith)
    · have q1 : (2457 : ℚ) ≤ r := by exact_mod_cast not_lt.mp h3
      have q2 : (r : ℚ) < 3276 := by exact_mod_cast h4
      exact (getLightLevelFrom_of_bucket _).2.2.2.1 (by linarith) (by linarith)
    · have q1 : (3276 : ℚ) ≤ r := by exact_mod_cast not_lt.mp h4
      exact (getLightLevelFrom_of_bucket _).2.2.2.2 (by linarith)
  rw [hexact, hcode]
  refine ⟨rfl, ?_⟩
  split_ifs with h1 h2 h3 h4 <;>
  refine ⟨?_, ?_, ?_, ?_, ?_⟩ <;>
  constructor <;> intro h <;>
  first
    | rfl
    | exact absurd h (by decide)
    | omega

/-- Instance of `getLightLevel_refines_exact` at the raw value 818, the last
one whose exact percentage 19.97... is still Dark. -/
theorem getLightLevel_refines_exact_witness :
    getLightLevel config ⟨fun _ => 818, -60⟩ =
        getLightLevelFrom (exactPercentage (readLDRRaw config ⟨fun _ => 818, -60⟩)) ∧
      getLightLevel config ⟨fun _ => 818, -60⟩ = "Dark" :=
  ⟨(getLightLevel_refines_exact ⟨fun _ => 818, -60⟩ (by decide) (by decide)).1,
    (getLightLevel_refines_exact ⟨fun _ => 818, -60⟩ (by decide) (by decide)).2.1.mpr
      (by decide)⟩
/-! ## Monotonicity -/

/-- Truncating division by a positive divisor is monotone in the dividend. -/
theorem tdiv_mono (a b c : Int) (hc : 0 < c) (hab : a ≤ b) : Int.tdiv a c ≤ Int.tdiv b c := by
  rcases lt_or_le b 0 with hb | hb
  · rw [tdiv_of_neg a c (by omega) hc, tdiv_of_neg b c hb hc]
    have : (-b) / c ≤ (-a) / c := Int.ediv_le_ediv hc (by omega)
    omega
  · rcases lt_or_le a 0 with ha | ha
    · rw [tdiv_of_neg a c ha hc, Int.tdiv_eq_ediv hb (by omega)]
      have h1 : 0 ≤ (-a) / c := Int.ediv_nonneg (by omega) (by omega)
      have h2 : 0 ≤ b / c := Int.ediv_nonneg hb (by omega)
      omega
    · rw [Int.tdiv_eq_ediv ha (by omega), Int.tdiv_eq_ediv hb (by omega)]
      exact Int.ediv_le_ediv hc hab

/-- A larger percentage never gets a darker label. -/
theorem lightLevelRank_mono (p q : ℚ) (h : p ≤ q) :
    lightLevelRank (getLightLevelFrom p) ≤ lightLevelRank (getLightLevelFrom q) := by
  unfold getLightLevelFrom
  split_ifs <;> first | decide | (exfalso; linarith)

/-- C13: the percentage is monotone in the raw reading: for calibration bounds
`0 ≤ min < max ≤ 4095` and raw values `0 ≤ a ≤ b ≤ 4095` the percentage of
`readLDRPercentage` for `a` is at most the one for `b`, and the label of
`getLightLevel` for `a` is never brighter than the label for `b`. -/
theorem readLDRPercentage_mono (cfg : Config) (hw hw' : Hardware)
    (hmin : 0 ≤ cfg.LDR_MIN_VALUE) (hlt : cfg.LDR_MIN_VALUE < cfg.LDR_MAX_VALUE)
    (hmax : cfg.LDR_MAX_VALUE ≤ 4095)
    (ha : 0 ≤ readLDRRaw cfg hw) (hab : readLDRRaw cfg hw ≤ readLDRRaw cfg hw')
    (hb : readLDRRaw cfg hw' ≤ 4095) :
    readLDRPercentage cfg hw ≤ readLDRPercentage cfg hw' ∧
      lightLevelRank (getLightLevel cfg hw) ≤ lightLevelRank (getLightLevel cfg hw') := by
  have hpct : readLDRPercentage cfg hw ≤ readLDRPercentage cfg hw' := by
    unfold readLDRPercentage
    generalize readLDRRaw cfg hw = a at ha hab
    generalize readLDRRaw cfg hw' = b at hab hb
    rw [readLDRPercentageFrom_eq_clamp, readLDRPercentageFrom_eq_clamp,
      map_in_domain a _ _ hmin hlt hmax ha (by omega),
      map_in_domain b _ _ hmin hlt hmax (by omega) hb]
    have hq : Int.tdiv ((a - cfg.LDR_MIN_VALUE) * 100) (cfg.LDR_MAX_VALUE - cfg.LDR_MIN_VALUE) ≤
        Int.tdiv ((b - cfg.LDR_MIN_VALUE) * 100) (cfg.LDR_MAX_VALUE - cfg.LDR_MIN_VALUE) :=
      tdiv_mono _ _ _ (by omega) (by omega)
    exact_mod_cast max_le_max (le_refl (0 : Int)) (min_le_min (le_refl (100 : Int)) hq)
  exact ⟨hpct, lightLevelRank_mono _ _ hpct⟩

/-- Instance of `readLDRPercentage_mono` at bounds 1000 and 3000 for the raw
values 1500 and 2500. -/
theorem readLDRPercentage_mono_witness :
    readLDRPercentage ⟨34, 1000, 3000⟩ ⟨fun _ => 1500, -60⟩ ≤
        readLDRPercentage ⟨34, 1000, 3000⟩ ⟨fun _ => 2500, -60⟩ ∧
      lightLevelRank (getLightLevel ⟨34, 1000, 3000⟩ ⟨fun _ => 1500, -60⟩) ≤
        lightLevelRank (getLightLevel ⟨34, 1000, 3000⟩ ⟨fun _ => 2500, -60⟩) :=
  readLDRPercentage_mono ⟨34, 1000, 3000⟩ ⟨fun _ => 1500, -60⟩ ⟨fun _ => 2500, -60⟩
    (by decide) (by decide) (by decide) (by decide) (by decide) (by decide)
end Sensors
